import Mathlib

/-!
Verification of the core of the Godot-MCP repository.

Part 1 embeds `GodotExecutor.execute` and `GodotExecutor.runInlineScript`
from `src/godot/executor.ts`; part 2 embeds the `GodotLSPClient` from
`src/godot/lsp-client.ts` (connect / disconnect / isConnected /
sendRequest / handleMessage / parseDiagnostics).

The JavaScript code is event driven: `execute` returns a promise that is
resolved by whichever of the timeout timer, the child process `close`
event or the `error` event runs first (a promise ignores every resolve
after the first one, and `clearTimeout` only makes later timer firings
impossible, which the first-resolver-wins semantics already subsumes).
We embed one call as a fold over the list of events delivered to the
handlers, in delivery order, stopping at the first terminal event.
-/

namespace GodotMCP

/-- Shallow embedding of the `GodotProcessResult` interface from
`src/types/index.ts`: `success: boolean; output: string; error?: string;
exitCode?: number`.  Optional fields become `Option`; `exitCode` is an
`Int` because the code stores the sentinel `-1`. -/
structure GodotProcessResult where
  success : Bool
  output : String
  error : Option String
  exitCode : Option Int
deriving Repr, DecidableEq

/-- One event delivered to the handlers installed by
`GodotExecutor.execute` (`src/godot/executor.ts`, lines 45–83):
a stdout `data` chunk, a stderr `data` chunk, the timeout timer firing,
the child `close` event (whose code is `number | null`, hence
`Option Int`), or the child `error` event. -/
inductive ExecEvent where
  | stdoutData (s : String)
  | stderrData (s : String)
  | timeoutFire
  | closeEvent (code : Option Int)
  | errorEvent (msg : String)
deriving Repr, DecidableEq

/-- Outcome of one `execute` call: the result the promise resolved with
(`none` when no terminal event has been delivered yet) and whether
`childProcess.kill` was invoked (which the timeout branch does with
signal `SIGTERM`). -/
structure ExecOutcome where
  result : Option GodotProcessResult
  killed : Bool
deriving Repr, DecidableEq

/-- Embedding of the promise body of `GodotExecutor.execute`
(`src/godot/executor.ts`, lines 35–84), as a fold over the delivered
events.  `out`/`err` are the accumulators `output` and `errorOutput`;
the `captureOutput` option guards the two `data` handlers; the first
terminal event resolves the promise:
timeout → `kill('SIGTERM')` and `{success:false, output, error:"Process
timed out", exitCode:-1}`; `close(code)` → `{success: code === 0,
output, error: errorOutput || undefined, exitCode: code ?? undefined}`;
`error(err)` → `{success:false, output:"", error:err.message,
exitCode:-1}`. -/
def executeRun (capture : Bool) : List ExecEvent → String → String → ExecOutcome
  | [], _, _ => { result := none, killed := false }
  | ExecEvent.stdoutData s :: rest, out, err =>
      executeRun capture rest (if capture then out ++ s else out) err
  | ExecEvent.stderrData s :: rest, out, err =>
      executeRun capture rest out (if capture then err ++ s else err)
  | ExecEvent.timeoutFire :: _, out, _ =>
      { result := some { success := false, output := out,
                         error := some "Process timed out",
                         exitCode := some (-1) },
        killed := true }
  | ExecEvent.closeEvent code :: _, out, err =>
      { result := some { success := decide (code = some 0), output := out,
                         error := if err = "" then none else some err,
                         exitCode := code },
        killed := false }
  | ExecEvent.errorEvent msg :: _, _, _ =>
      { result := some { success := false, output := "",
                         error := some msg,
                         exitCode := some (-1) },
        killed := false }

/-- One call to `GodotExecutor.execute` with `captureOutput = capture`,
observed on an event trace: both accumulators start empty. -/
def execute (capture : Bool) (events : List ExecEvent) : ExecOutcome :=
  executeRun capture events "" ""

/-- True on the non-terminal events (stream `data` chunks). -/
def isDataEvent : ExecEvent → Bool
  | ExecEvent.stdoutData _ => true
  | ExecEvent.stderrData _ => true
  | _ => false

/-- Concatenation of the stdout chunks of a trace, in delivery order. -/
def stdoutTextOf : List ExecEvent → String
  | [] => ""
  | ExecEvent.stdoutData s :: rest => s ++ stdoutTextOf rest
  | _ :: rest => stdoutTextOf rest

/-- Concatenation of the stderr chunks of a trace, in delivery order. -/
def stderrTextOf : List ExecEvent → String
  | [] => ""
  | ExecEvent.stderrData s :: rest => s ++ stderrTextOf rest
  | _ :: rest => stderrTextOf rest

/-- The stdout text `execute` captures from a trace: empty when
`captureOutput` is false. -/
def capturedOut (capture : Bool) (events : List ExecEvent) : String :=
  if capture then stdoutTextOf events else ""

/-- The stderr text `execute` captures from a trace: empty when
`captureOutput` is false. -/
def capturedErr (capture : Bool) (events : List ExecEvent) : String :=
  if capture then stderrTextOf events else ""

/-- Outcome of one `GodotExecutor.runInlineScript` call: the
`GodotProcessResult` it returns and whether the scratch file still
exists when the call returns (meaningful once `writeFile` created it). -/
structure InlineOutcome where
  result : GodotProcessResult
  fileStillThere : Bool
deriving Repr, DecidableEq

/-- Embedding of `GodotExecutor.runInlineScript`
(`src/godot/executor.ts`, lines 131–147).  The body is
`try { await writeFile(tempFile, code); const result = await
this.runScript(tempFile); await unlink(tempFile); return result; }
catch (error) { return {success:false, output:'', error:message,
exitCode:-1}; }`.

`writeErr` / `unlinkErr` are the error messages of a failing `writeFile`
/ `unlink` (`none` = the call succeeded); `runResult` is the result the
inner `runScript` resolves with — `runScript` delegates to `execute`,
whose promise only ever resolves (spawn errors, non-zero exits and
timeouts all resolve it with a failure result), so the run itself is
not a throw site.  A failing `writeFile` jumps to the catch before the
file exists; a failing `unlink` jumps to the catch after the run, with
the file still on disk, and its message — not `runResult` — becomes the
returned error. -/
def runInlineScript (writeErr : Option String) (runResult : GodotProcessResult)
    (unlinkErr : Option String) : InlineOutcome :=
  match writeErr with
  | some msg =>
      { result := { success := false, output := "", error := some msg, exitCode := some (-1) },
        fileStillThere := false }
  | none =>
      match unlinkErr with
      | some msg =>
          { result := { success := false, output := "", error := some msg, exitCode := some (-1) },
            fileStillThere := true }
      | none => { result := runResult, fileStillThere := false }

/-- A concrete successful run result, used in counterexamples. -/
def okRun : GodotProcessResult :=
  { success := true, output := "script done", error := none, exitCode := some 0 }

/-- Concrete data-only trace used to witness the timeout claim. -/
def c1Pre : List ExecEvent :=
  [ExecEvent.stdoutData "partial ", ExecEvent.stderrData "warn",
   ExecEvent.stdoutData "text"]

/-- Concrete data-only trace used to witness the close-event claim. -/
def c2Pre : List ExecEvent :=
  [ExecEvent.stdoutData "done", ExecEvent.stderrData "oops"]

/-- Concrete data-only trace used to witness the null-exit-code claim. -/
def c10Pre : List ExecEvent :=
  [ExecEvent.stdoutData "out", ExecEvent.stderrData "killed by signal"]

/-- State of the `net.Socket` held by the client, as far as
`isConnected` observes it: only the `destroyed` flag.  A `net.Socket`
whose connection attempt fails emits `error` and is then destroyed
(`destroyed = true`); a socket whose TCP connection succeeded stays
alive (`destroyed = false`) until `destroy()` is called. -/
structure SocketState where
  destroyed : Bool
deriving Repr, DecidableEq

/-- Shallow embedding of the mutable fields of `GodotLSPClient`
(`src/godot/lsp-client.ts`, lines 19–29): `client` (the socket or
`null`), `messageId` (starts at 0), and `pendingRequests` (a map from
id to handlers, embedded as the list of its keys in insertion order).
`resolveLog` / `rejectLog` record, in order, the ids whose promise was
resolved by `handleMessage` / rejected by a request timeout, and
`idLog` records every id ever assigned by `sendRequest` — observation
logs, not part of the JavaScript state. -/
structure LSPClientState where
  client : Option SocketState
  messageId : Nat
  pending : List Nat
  resolveLog : List Nat
  rejectLog : List Nat
  idLog : List Nat
deriving Repr, DecidableEq

/-- A freshly constructed `GodotLSPClient`: no socket, `messageId = 0`,
empty pending map. -/
def freshClient : LSPClientState :=
  { client := none, messageId := 0, pending := [], resolveLog := [],
    rejectLog := [], idLog := [] }

/-- Embedding of the synchronous part of `GodotLSPClient.sendRequest`
(`src/lsp-client.ts`, lines 174–190): with no socket it throws
(`none`, state unchanged); otherwise `const id = ++this.messageId`
assigns the next integer id and `pendingRequests.set(id, ...)` records
it.  The write to the socket does not change client state. -/
def sendRequestStep (s : LSPClientState) : Option Nat × LSPClientState :=
  match s.client with
  | none => (none, s)
  | some _ =>
      (some (s.messageId + 1),
        { s with messageId := s.messageId + 1,
                 pending := s.pending ++ [s.messageId + 1],
                 idLog := s.idLog ++ [s.messageId + 1] })

/-- Embedding of the `setTimeout` callback of `sendRequest`
(`src/lsp-client.ts`, lines 192–197): if the id is still pending it is
deleted and its promise rejected; otherwise nothing happens. -/
def fireTimeout (id : Nat) (s : LSPClientState) : LSPClientState :=
  if id ∈ s.pending then
    { s with pending := s.pending.erase id, rejectLog := s.rejectLog ++ [id] }
  else s

/-- One line of incoming socket data, after
`data.split('\n').filter(Boolean)`: either `JSON.parse` throws on it
(`malformed`) or it yields an envelope whose `id` field is the given
`Option Nat` (`none` when the field is absent). -/
inductive Envelope where
  | malformed
  | message (id : Option Nat)
deriving Repr, DecidableEq

/-- The newline split performed by `handleMessage`
(`src/lsp-client.ts`, line 215): `data.split('\n').filter(Boolean)`
(the filter drops empty strings, which are falsy). -/
def splitMessages (data : String) : List String :=
  (data.splitOn "\n").filter (fun l => !l.isEmpty)

/-- Embedding of the body of the `for` loop of
`GodotLSPClient.handleMessage` (`src/lsp-client.ts`, lines 220–224)
for one parsed line: `if (parsed.id && pendingRequests.has(parsed.id))`
— note the truthiness test, so an absent or zero id is skipped — then
the entry is deleted and its promise resolved with `parsed.params`. -/
def processEnvelope (id? : Option Nat) (s : LSPClientState) : LSPClientState :=
  match id? with
  | none => s
  | some id =>
      if id ≠ 0 ∧ id ∈ s.pending then
        { s with pending := s.pending.erase id,
                 resolveLog := s.resolveLog ++ [id] }
      else s

/-- Embedding of `GodotLSPClient.handleMessage` (`src/lsp-client.ts`,
lines 213–229).  The `try` block wraps the whole loop, so the first
line on which `JSON.parse` throws aborts it: the exception lands in
the empty `catch` and every remaining line of the same `data` event is
dropped. -/
def handleMessage : List Envelope → LSPClientState → LSPClientState
  | [], s => s
  | Envelope.malformed :: _, s => s
  | Envelope.message id? :: rest, s => handleMessage rest (processEnvelope id? s)

/-- How one `connect()` attempt plays out (`src/lsp-client.ts`, lines
34–58): the socket connection errors out, or the TCP connect succeeds
but the `initialize` request times out, or the `initialize` response
arrives (handshake complete). -/
inductive ConnectOutcome where
  | socketError
  | initTimeout
  | handshakeOk
deriving Repr, DecidableEq

/-- Embedding of `GodotLSPClient.connect` (`src/lsp-client.ts`, lines
34–58).  It first assigns `this.client = new net.Socket()` (alive, not
destroyed).  On a socket `error` event it resolves `false`; the failed
socket is destroyed by Node (its `close` follows the `error`), which is
the state `isConnected` later observes.  When the TCP connect callback
runs, `sendRequest('initialize', ...)` assigns the next id; if that
request times out, the `.catch` resolves `false` — nothing destroys or
clears the socket.  If the response arrives, `handleMessage` resolves
the pending entry, the `initialized` notification is written (no state
change) and `connect` resolves `true`. -/
def connect (s : LSPClientState) (o : ConnectOutcome) : Bool × LSPClientState :=
  match o with
  | ConnectOutcome.socketError =>
      (false, { s with client := some { destroyed := true } })
  | ConnectOutcome.initTimeout =>
      (false,
        fireTimeout ((sendRequestStep { s with client := some { destroyed := false } }).2).messageId
          ((sendRequestStep { s with client := some { destroyed := false } }).2))
  | ConnectOutcome.handshakeOk =>
      (true,
        processEnvelope (some ((sendRequestStep { s with client := some { destroyed := false } }).2).messageId)
          ((sendRequestStep { s with client := some { destroyed := false } }).2))

/-- Embedding of `GodotLSPClient.disconnect` (`src/lsp-client.ts`,
lines 63–68): destroy the socket and null the field (observationally,
`client` becomes `none`); a second call finds `null` and does
nothing. -/
def disconnect (s : LSPClientState) : LSPClientState :=
  match s.client with
  | some _ => { s with client := none }
  | none => s

/-- Embedding of `GodotLSPClient.isConnected` (`src/lsp-client.ts`,
lines 73–75): `this.client !== null && !this.client.destroyed`. -/
def isConnected (s : LSPClientState) : Bool :=
  match s.client with
  | none => false
  | some sock => !sock.destroyed

/-- One client-level step, used to range over every reachable
interleaving of the operations that touch the client state. -/
inductive ClientOp where
  | send
  | deliver (id? : Option Nat)
  | timeout (id : Nat)
  | conn (o : ConnectOutcome)
  | disc
deriving Repr, DecidableEq

/-- Apply one step to the client state. -/
def applyOp : ClientOp → LSPClientState → LSPClientState
  | ClientOp.send, s => (sendRequestStep s).2
  | ClientOp.deliver id?, s => processEnvelope id? s
  | ClientOp.timeout id, s => fireTimeout id s
  | ClientOp.conn o, s => (connect s o).2
  | ClientOp.disc, s => disconnect s

/-- The state after running a sequence of steps on a fresh client. -/
def runOps (ops : List ClientOp) : LSPClientState :=
  ops.foldl (fun s op => applyOp op s) freshClient

/-- Reachability invariant of the client state: the ids ever assigned
are exactly `1, 2, …, messageId` in order, and the pending keys are a
subsequence of them. -/
def ClientInv (s : LSPClientState) : Prop :=
  s.idLog = List.range' 1 s.messageId ∧ List.Sublist s.pending s.idLog

/-- One raw LSP diagnostic as `parseDiagnostics` reads it
(`src/lsp-client.ts`, lines 235–249): the `range.start` 0-based `line`
and `column`, the `message`, and the integer `severity` code. -/
structure RawDiag where
  line : Nat
  column : Nat
  message : String
  severity : Nat
deriving Repr, DecidableEq

/-- One entry of the `errors` / `warnings` output lists
(`GDScriptError` / `GDScriptWarning` in `src/types/index.ts`):
1-based line and column, the message, and the severity tag. -/
structure DiagEntry where
  line : Nat
  column : Nat
  message : String
  severity : String
deriving Repr, DecidableEq

/-- The `for` loop of `GodotLSPClient.parseDiagnostics`
(`src/lsp-client.ts`, lines 237–250), with the two accumulator arrays:
each record yields `{line: line+1, column: column+1, message}`; it is
pushed onto `errors` tagged `'error'` when `severity === 1`, onto
`warnings` tagged `'warning'` when `severity === 2`, and dropped
otherwise (severities 3 and 4). -/
def parseDiagnosticsLoop :
    List RawDiag → List DiagEntry → List DiagEntry →
      List DiagEntry × List DiagEntry
  | [], es, ws => (es, ws)
  | d :: rest, es, ws =>
      if d.severity = 1 then
        parseDiagnosticsLoop rest
          (es ++ [{ line := d.line + 1, column := d.column + 1, message := d.message, severity := "error" }]) ws
      else if d.severity = 2 then
        parseDiagnosticsLoop rest es
          (ws ++ [{ line := d.line + 1, column := d.column + 1, message := d.message, severity := "warning" }])
      else
        parseDiagnosticsLoop rest es ws

/-- Embedding of `GodotLSPClient.parseDiagnostics`
(`src/lsp-client.ts`, lines 231–253), starting from two empty
accumulators. -/
def parseDiagnostics (ds : List RawDiag) : List DiagEntry × List DiagEntry :=
  parseDiagnosticsLoop ds [] []

/-- Specification-side conversion of one record: 1-based coordinates,
message verbatim, the given severity tag. -/
def toEntry (sev : String) (d : RawDiag) : DiagEntry :=
  { line := d.line + 1, column := d.column + 1, message := d.message, severity := sev }

/-- Concrete client state with one pending request, used as witness
input for the pending-map race claim. -/
def c4State : LSPClientState :=
  { client := some { destroyed := false }, messageId := 1, pending := [1],
    resolveLog := [], rejectLog := [], idLog := [1] }

/-- Concrete client state with two pending requests, used by the
malformed-line claims. -/
def c9State : LSPClientState :=
  { client := some { destroyed := false }, messageId := 2, pending := [1, 2],
    resolveLog := [], rejectLog := [], idLog := [1, 2] }

/-- One data event carrying a good line, a malformed line, then
another good line. -/
def c9Lines : List Envelope :=
  [Envelope.message (some 1), Envelope.malformed, Envelope.message (some 2)]

/-- Well-formed lines delivered before the malformed one (witness). -/
def c9wPre : List Envelope := [Envelope.message (some 1)]

/-- Lines delivered after the malformed one (witness). -/
def c9wPost : List Envelope := [Envelope.message (some 2)]

theorem executeRun_data_pre (capture : Bool) (pre es : List ExecEvent)
    (out err : String) (h : ∀ e ∈ pre, isDataEvent e = true) :
    executeRun capture (pre ++ es) out err =
      executeRun capture es (out ++ capturedOut capture pre)
        (err ++ capturedErr capture pre) := by
  induction pre generalizing out err with
  | nil =>
      simp [capturedOut, capturedErr, stdoutTextOf, stderrTextOf,
        String.append_empty]
  | cons e tl ih =>
      have htl : ∀ x ∈ tl, isDataEvent x = true :=
        fun x hx => h x (List.mem_cons_of_mem _ hx)
      cases e with
      | stdoutData s =>
          rw [List.cons_append]
          rw [show executeRun capture (ExecEvent.stdoutData s :: (tl ++ es)) out err
                = executeRun capture (tl ++ es) (if capture then out ++ s else out) err
              from rfl]
          rw [ih _ _ htl]
          cases capture with
          | false => simp [capturedOut, capturedErr]
          | true =>
              simp [capturedOut, capturedErr, stdoutTextOf, stderrTextOf,
                String.append_assoc]
      | stderrData s =>
          rw [List.cons_append]
          rw [show executeRun capture (ExecEvent.stderrData s :: (tl ++ es)) out err
                = executeRun capture (tl ++ es) out (if capture then err ++ s else err)
              from rfl]
          rw [ih _ _ htl]
          cases capture with
          | false => simp [capturedOut, capturedErr]
          | true =>
              simp [capturedOut, capturedErr, stdoutTextOf, stderrTextOf,
                String.append_assoc]
      | timeoutFire =>
          have := h ExecEvent.timeoutFire (List.mem_cons_self _ _)
          simp [isDataEvent] at this
      | closeEvent code =>
          have := h (ExecEvent.closeEvent code) (List.mem_cons_self _ _)
          simp [isDataEvent] at this
      | errorEvent msg =>
          have := h (ExecEvent.errorEvent msg) (List.mem_cons_self _ _)
          simp [isDataEvent] at this

/-- C1.  If the timeout timer fires before any `close` or `error` event
(the trace up to the firing holds only stream-data events), the call
resolves with `success = false`, `error = "Process timed out"`,
`exitCode = -1`, and as `output` exactly the stdout text captured so
far, and `kill('SIGTERM')` is invoked on the child process.  Whatever
events follow (`rest` is arbitrary, covering a late `close` of the
killed process) cannot change the already-resolved result. -/
theorem execute_timeout_first (capture : Bool) (pre rest : List ExecEvent)
    (h : ∀ e ∈ pre, isDataEvent e = true) :
    execute capture (pre ++ ExecEvent.timeoutFire :: rest) =
      { result := some { success := false, output := capturedOut capture pre,
                         error := some "Process timed out",
                         exitCode := some (-1) },
        killed := true } := by
  unfold execute
  rw [executeRun_data_pre capture pre _ _ _ h]
  simp [executeRun, String.empty_append]

theorem execute_timeout_first_witness :
    (∀ e ∈ c1Pre, isDataEvent e = true) ∧
    execute true (c1Pre ++ ExecEvent.timeoutFire :: [ExecEvent.closeEvent (some 0)]) =
      { result := some { success := false, output := capturedOut true c1Pre, error := some "Process timed out", exitCode := some (-1) },
        killed := true } :=
  ⟨by decide, execute_timeout_first true c1Pre [ExecEvent.closeEvent (some 0)]
    (by decide)⟩

/-- C2.  If the process exits with code `n` (the `close` event) before
the timer fires, the call resolves with `success = true` iff `n = 0`,
the observed `exitCode = n`, the captured stdout as `output`, and
`error` carrying the accumulated stderr text when non-empty and absent
otherwise.  The timer cancellation (`clearTimeout`) and the
first-resolver-wins promise semantics make every later event
irrelevant: `rest` is arbitrary and may even contain
`ExecEvent.timeoutFire`, and the result is still the one built by the
`close` handler, with `killed = false`. -/
theorem execute_close_first (capture : Bool) (pre rest : List ExecEvent)
    (n : Int) (h : ∀ e ∈ pre, isDataEvent e = true) :
    execute capture (pre ++ ExecEvent.closeEvent (some n) :: rest) =
      { result := some { success := decide (n = 0),
                         output := capturedOut capture pre,
                         error := if capturedErr capture pre = "" then none
                                  else some (capturedErr capture pre),
                         exitCode := some n },
        killed := false } := by
  unfold execute
  rw [executeRun_data_pre capture pre _ _ _ h]
  simp [executeRun, String.empty_append]

theorem execute_close_first_witness :
    (∀ e ∈ c2Pre, isDataEvent e = true) ∧
    execute true (c2Pre ++ ExecEvent.closeEvent (some 3) :: [ExecEvent.timeoutFire]) =
      { result := some { success := decide ((3:Int) = 0), output := capturedOut true c2Pre, error := if capturedErr true c2Pre = "" then none else some (capturedErr true c2Pre), exitCode := some 3 },
        killed := false } :=
  ⟨by decide, execute_close_first true c2Pre [ExecEvent.timeoutFire] 3 (by decide)⟩

/-- C10.  If the `close` event reports a `null` exit code (the process
was ended by a signal other than the executor's own timeout), the call
resolves with `success = false` (since `null === 0` is false) and
`exitCode` absent (`code ?? undefined`), not the `-1` sentinel, while
still carrying the captured stdout as `output` and the accumulated
stderr, when non-empty, as `error`. -/
theorem execute_close_null_code (capture : Bool) (pre rest : List ExecEvent)
    (h : ∀ e ∈ pre, isDataEvent e = true) :
    execute capture (pre ++ ExecEvent.closeEvent none :: rest) =
      { result := some { success := false,
                         output := capturedOut capture pre,
                         error := if capturedErr capture pre = "" then none
                                  else some (capturedErr capture pre),
                         exitCode := none },
        killed := false } := by
  unfold execute
  rw [executeRun_data_pre capture pre _ _ _ h]
  simp [executeRun, String.empty_append]

theorem execute_close_null_code_witness :
    (∀ e ∈ c10Pre, isDataEvent e = true) ∧
    execute true (c10Pre ++ ExecEvent.closeEvent none :: []) =
      { result := some { success := false, output := capturedOut true c10Pre, error := if capturedErr true c10Pre = "" then none else some (capturedErr true c10Pre), exitCode := none },
        killed := false } :=
  ⟨by decide, execute_close_null_code true c10Pre [] (by decide)⟩

/-- C5, counterexample.  The claim says a failing scratch-file deletion
is ignored and the run's result `R` is still returned.  In the code the
`await unlink` rejection jumps into the catch block, which returns
`{success:false, output:'', error:<unlink message>, exitCode:-1}`
instead of the already-computed `R`: with a successful run and a
failing deletion the returned result is not `R`. -/
theorem inline_cleanup_masks_result_cex :
    (runInlineScript none okRun (some "EPERM: operation not permitted")).result ≠ okRun ∧
    (runInlineScript none okRun (some "EPERM: operation not permitted")).result =
      { success := false, output := "", error := some "EPERM: operation not permitted", exitCode := some (-1) } := by
  exact ⟨by decide, rfl⟩

/-- C5, amended.  The run's result `R` is returned only when deleting
the scratch file succeeds; when the deletion fails, the catch block
returns a failure result carrying the deletion error message
(`success = false`, empty output, `exitCode = -1`) in place of `R` —
the cleanup failure masks the underlying execution result. -/
theorem inline_cleanup_result (runResult : GodotProcessResult) (msg : String) :
    (runInlineScript none runResult none).result = runResult ∧
    (runInlineScript none runResult (some msg)).result =
      { success := false, output := "", error := some msg, exitCode := some (-1) } :=
  ⟨rfl, rfl⟩

/-- C7, counterexample.  The claim says that after a successful
scratch-file write the file no longer exists once the call returns,
regardless of outcome.  When the run completes but `unlink` itself
fails, control jumps to the catch block with the file still on disk,
so the postcondition fails. -/
theorem inline_scratch_survives_cex :
    (runInlineScript none okRun (some "EPERM: operation not permitted, unlink")).fileStillThere = true := by
  decide

/-- C7, amended.  After a successful write, deletion of the scratch
file is attempted after every run completion (success, non-zero exit
and timeout all resolve the run — `execute` never rejects), and the
file is gone whenever that `unlink` succeeds; but when the `unlink`
call itself fails the file remains on disk.  When the write fails, no
file was created and none remains. -/
theorem inline_scratch_deleted (runResult : GodotProcessResult) (msg : String) :
    (runInlineScript none runResult none).fileStillThere = false ∧
    (runInlineScript none runResult (some msg)).fileStillThere = true ∧
    (runInlineScript (some msg) runResult none).fileStillThere = false :=
  ⟨rfl, rfl, rfl⟩

theorem fireTimeout_client_eq (id : Nat) (s : LSPClientState) :
    (fireTimeout id s).client = s.client := by
  unfold fireTimeout
  split <;> rfl

theorem sendRequestStep_client_eq (s : LSPClientState) :
    ((sendRequestStep s).2).client = s.client := by
  unfold sendRequestStep
  cases h : s.client <;> simp [h]

/-- C3, counterexample.  The claim says every failing `connect()`
leaves the client `Disconnected` (`isConnected()` false).  When the
`initialize` request times out, the `.catch(() => resolve(false))`
resolves `connect()` to `false` but neither destroys nor clears
`this.client`: the TCP socket is still alive, so `isConnected()`
returns `true`. -/
theorem connect_init_timeout_cex :
    (connect freshClient ConnectOutcome.initTimeout).1 = false ∧
    isConnected (connect freshClient ConnectOutcome.initTimeout).2 = true := by
  decide

/-- C3, amended.  Every failing `connect()` resolves to `false`.  After
a socket connection error the failed socket is destroyed, so
`isConnected()` returns `false`; but after an `initialize` timeout the
connected socket is left in place and `isConnected()` returns `true` —
the client is not left `Disconnected` in that case. -/
theorem connect_failure_behavior (s : LSPClientState) :
    (connect s ConnectOutcome.socketError).1 = false ∧
    isConnected (connect s ConnectOutcome.socketError).2 = false ∧
    (connect s ConnectOutcome.initTimeout).1 = false ∧
    isConnected (connect s ConnectOutcome.initTimeout).2 = true := by
  refine ⟨rfl, rfl, rfl, ?_⟩
  show isConnected (fireTimeout _ _) = true
  unfold isConnected
  rw [fireTimeout_client_eq, sendRequestStep_client_eq]
  rfl

/-- C4.  A pending entry is removed from the map exactly once, by
whichever of the matching response (`handleMessage`) and the request
timeout runs first, and the loser is a no-op.  With `id` pending in a
duplicate-free map: the response deletes the entry and resolves it
(appends to `resolveLog`), the timeout deletes the entry and rejects
it (appends to `rejectLog`), after either the id is gone from the map,
a timeout firing after the response leaves the state untouched, and a
response arriving after the timeout leaves the state untouched — no
second resolution, no error. -/
theorem pending_entry_removed_once (s : LSPClientState) (id : Nat)
    (hnd : s.pending.Nodup) (hmem : id ∈ s.pending) (hpos : id ≠ 0) :
    processEnvelope (some id) s =
      { s with pending := s.pending.erase id, resolveLog := s.resolveLog ++ [id] } ∧
    fireTimeout id s =
      { s with pending := s.pending.erase id, rejectLog := s.rejectLog ++ [id] } ∧
    id ∉ (processEnvelope (some id) s).pending ∧
    id ∉ (fireTimeout id s).pending ∧
    fireTimeout id (processEnvelope (some id) s) = processEnvelope (some id) s ∧
    processEnvelope (some id) (fireTimeout id s) = fireTimeout id s := by
  have hresp : processEnvelope (some id) s =
      { s with pending := s.pending.erase id, resolveLog := s.resolveLog ++ [id] } := by
    simp only [processEnvelope]
    rw [if_pos ⟨hpos, hmem⟩]
  have htime : fireTimeout id s =
      { s with pending := s.pending.erase id, rejectLog := s.rejectLog ++ [id] } := by
    unfold fireTimeout
    rw [if_pos hmem]
  have hout : id ∉ s.pending.erase id := hnd.not_mem_erase
  refine ⟨hresp, htime, ?_, ?_, ?_, ?_⟩
  · rw [hresp]
    exact hout
  · rw [htime]
    exact hout
  · rw [hresp]
    unfold fireTimeout
    exact if_neg hout
  · rw [htime]
    simp only [processEnvelope]
    exact if_neg (fun hc => hout hc.2)

theorem pending_entry_removed_once_witness :
    c4State.pending.Nodup ∧ 1 ∈ c4State.pending ∧ (1 : Nat) ≠ 0 ∧
    (processEnvelope (some 1) c4State =
      { c4State with pending := c4State.pending.erase 1, resolveLog := c4State.resolveLog ++ [1] } ∧
    fireTimeout 1 c4State =
      { c4State with pending := c4State.pending.erase 1, rejectLog := c4State.rejectLog ++ [1] } ∧
    1 ∉ (processEnvelope (some 1) c4State).pending ∧
    1 ∉ (fireTimeout 1 c4State).pending ∧
    fireTimeout 1 (processEnvelope (some 1) c4State) = processEnvelope (some 1) c4State ∧
    processEnvelope (some 1) (fireTimeout 1 c4State) = fireTimeout 1 c4State) :=
  ⟨by decide, by decide, by decide,
    pending_entry_removed_once c4State 1 (by decide) (by decide) (by decide)⟩

theorem range'_one_concat (s n : Nat) :
    List.range' s (n + 1) = List.range' s n ++ [s + n] := by
  induction n generalizing s with
  | zero => simp [List.range']
  | succ k ih =>
      rw [List.range'_succ, ih (s + 1), List.range'_succ]
      simp [List.cons_append]
      omega

theorem clientInv_fresh : ClientInv freshClient :=
  ⟨rfl, List.nil_sublist _⟩

theorem clientInv_send (s : LSPClientState) (h : ClientInv s) :
    ClientInv (sendRequestStep s).2 := by
  obtain ⟨h1, h2⟩ := h
  unfold sendRequestStep
  cases hc : s.client with
  | none => exact ⟨h1, h2⟩
  | some sock =>
      refine ⟨?_, ?_⟩
      · show s.idLog ++ [s.messageId + 1] = List.range' 1 (s.messageId + 1)
        rw [h1, range'_one_concat]
        simp [Nat.add_comm]
      · show List.Sublist (s.pending ++ [s.messageId + 1]) (s.idLog ++ [s.messageId + 1])
        exact h2.append (List.Sublist.refl _)

theorem clientInv_deliver (id? : Option Nat) (s : LSPClientState) (h : ClientInv s) :
    ClientInv (processEnvelope id? s) := by
  obtain ⟨h1, h2⟩ := h
  cases id? with
  | none => exact ⟨h1, h2⟩
  | some id =>
      simp only [processEnvelope]
      split
      · exact ⟨h1, (List.erase_sublist _ _).trans h2⟩
      · exact ⟨h1, h2⟩

theorem clientInv_timeout (id : Nat) (s : LSPClientState) (h : ClientInv s) :
    ClientInv (fireTimeout id s) := by
  obtain ⟨h1, h2⟩ := h
  unfold fireTimeout
  split
  · exact ⟨h1, (List.erase_sublist _ _).trans h2⟩
  · exact ⟨h1, h2⟩

theorem clientInv_conn (o : ConnectOutcome) (s : LSPClientState) (h : ClientInv s) :
    ClientInv (connect s o).2 := by
  obtain ⟨h1, h2⟩ := h
  cases o with
  | socketError => exact ⟨h1, h2⟩
  | initTimeout => exact clientInv_timeout _ _ (clientInv_send _ ⟨h1, h2⟩)
  | handshakeOk => exact clientInv_deliver _ _ (clientInv_send _ ⟨h1, h2⟩)

theorem clientInv_disc (s : LSPClientState) (h : ClientInv s) :
    ClientInv (disconnect s) := by
  obtain ⟨h1, h2⟩ := h
  unfold disconnect
  cases hc : s.client with
  | none => exact ⟨h1, h2⟩
  | some sock => exact ⟨h1, h2⟩

theorem clientInv_applyOp (op : ClientOp) (s : LSPClientState) (h : ClientInv s) :
    ClientInv (applyOp op s) := by
  cases op with
  | send => exact clientInv_send s h
  | deliver id? => exact clientInv_deliver id? s h
  | timeout id => exact clientInv_timeout id s h
  | conn o => exact clientInv_conn o s h
  | disc => exact clientInv_disc s h

theorem foldl_clientInv (l : List ClientOp) :
    ∀ s, ClientInv s → ClientInv (l.foldl (fun s op => applyOp op s) s) := by
  induction l with
  | nil => exact fun s h => h
  | cons op tl ih => exact fun s h => ih _ (clientInv_applyOp op s h)

theorem runOps_inv (ops : List ClientOp) : ClientInv (runOps ops) :=
  foldl_clientInv ops freshClient clientInv_fresh

/-- C6, counterexample.  The claim says that within every connection
ids start at 1.  The counter `messageId` belongs to the client and is
never reset: the first connection's `initialize` gets id 1, but after
a disconnect the second connection's `initialize` — its first outgoing
request — gets id 2, not 1. -/
theorem connection_ids_restart_cex :
    (connect freshClient ConnectOutcome.handshakeOk).2.idLog = [1] ∧
    (connect (disconnect (connect freshClient ConnectOutcome.handshakeOk).2) ConnectOutcome.handshakeOk).2.idLog = [1, 2] ∧
    (2 : Nat) ≠ 1 := by
  decide

/-- C6, amended.  Correlation ids are drawn from a single per-client
counter: over every interleaving of operations on a fresh client, the
ids ever assigned are exactly `1, 2, …, messageId` in order — strictly
increasing, never reused anywhere in the client's lifetime (so in
particular never reused within one connection, and two requests issued
before either resolves always get distinct ids), with the very first
assigned id equal to 1.  A connection after the first therefore starts
at the successor of the previous connection's last id, not at 1. -/
theorem correlation_ids_monotone (ops : List ClientOp) :
    (runOps ops).idLog = List.range' 1 (runOps ops).messageId ∧
    List.Pairwise (· < ·) (runOps ops).idLog ∧
    (runOps ops).idLog.Nodup ∧
    (runOps ops).idLog.head? = (if (runOps ops).messageId = 0 then none else some 1) := by
  obtain ⟨h1, -⟩ := runOps_inv ops
  refine ⟨h1, ?_, ?_, ?_⟩
  · rw [h1]
    exact List.pairwise_lt_range' _ _
  · rw [h1]
    exact (List.pairwise_lt_range' _ _).imp (fun hab => Nat.ne_of_lt hab)
  · rw [h1]
    cases hm : (runOps ops).messageId with
    | zero => simp [List.range']
    | succ k =>
        rw [List.range'_succ]
        simp

theorem processEnvelope_pending_sublist (id? : Option Nat) (s : LSPClientState) :
    List.Sublist (processEnvelope id? s).pending s.pending := by
  cases id? with
  | none => exact List.Sublist.refl _
  | some id =>
      simp only [processEnvelope]
      split
      · exact List.erase_sublist _ _
      · exact List.Sublist.refl _

theorem handleMessage_pending_sublist (ls : List Envelope) :
    ∀ s, List.Sublist (handleMessage ls s).pending s.pending := by
  induction ls with
  | nil => exact fun s => List.Sublist.refl _
  | cons e tl ih =>
      intro s
      cases e with
      | malformed => exact List.Sublist.refl _
      | message id? =>
          exact (ih (processEnvelope id? s)).trans (processEnvelope_pending_sublist id? s)

/-- C9, counterexample.  The claim says a malformed line does not
prevent the other lines of the same `data` event from being matched.
But the `try` block wraps the whole `for` loop: with pending requests
1 and 2 and the lines "good(1), malformed, good(2)", request 1 is
resolved, then `JSON.parse` throws, the `catch` swallows the
exception, and the line for request 2 is never processed — request 2
stays pending and unresolved. -/
theorem malformed_line_aborts_batch_cex :
    (handleMessage c9Lines c9State).resolveLog = [1] ∧
    2 ∈ (handleMessage c9Lines c9State).pending ∧
    2 ∉ (handleMessage c9Lines c9State).resolveLog := by
  decide

/-- C9, amended.  A malformed line is dropped silently: the reader
does not crash, the pending map is not corrupted (the resulting
pending list is a subsequence of the original — entries are only ever
removed by a matching id), and every line delivered before the
malformed one in the same `data` event is processed normally; but the
caught exception aborts the loop, so the lines after the malformed one
in the same `data` event are dropped unprocessed. -/
theorem malformed_line_behavior (pre post : List Envelope) (s : LSPClientState)
    (h : ∀ e ∈ pre, e ≠ Envelope.malformed) :
    handleMessage (pre ++ Envelope.malformed :: post) s = handleMessage pre s ∧
    List.Sublist (handleMessage (pre ++ Envelope.malformed :: post) s).pending s.pending := by
  have key : ∀ (l : List Envelope) (t : LSPClientState),
      (∀ e ∈ l, e ≠ Envelope.malformed) →
      handleMessage (l ++ Envelope.malformed :: post) t = handleMessage l t := by
    intro l
    induction l with
    | nil => exact fun t _ => rfl
    | cons e tl ih =>
        intro t hl
        cases e with
        | malformed => exact absurd rfl (hl _ (List.mem_cons_self _ _))
        | message id? =>
            show handleMessage (tl ++ Envelope.malformed :: post) (processEnvelope id? t) =
              handleMessage tl (processEnvelope id? t)
            exact ih _ (fun x hx => hl x (List.mem_cons_of_mem _ hx))
  refine ⟨key pre s h, ?_⟩
  rw [key pre s h]
  exact handleMessage_pending_sublist pre s

theorem malformed_line_behavior_witness :
    (∀ e ∈ c9wPre, e ≠ Envelope.malformed) ∧
    (handleMessage (c9wPre ++ Envelope.malformed :: c9wPost) c9State = handleMessage c9wPre c9State ∧
    List.Sublist (handleMessage (c9wPre ++ Envelope.malformed :: c9wPost) c9State).pending c9State.pending) :=
  ⟨by decide, malformed_line_behavior c9wPre c9wPost c9State (by decide)⟩

theorem parseDiagnosticsLoop_spec (ds : List RawDiag) :
    ∀ es ws, parseDiagnosticsLoop ds es ws =
      (es ++ (ds.filter (fun d => d.severity == 1)).map (toEntry "error"),
       ws ++ (ds.filter (fun d => d.severity == 2)).map (toEntry "warning")) := by
  induction ds with
  | nil =>
      intro es ws
      simp [parseDiagnosticsLoop]
  | cons d tl ih =>
      intro es ws
      by_cases h1 : d.severity = 1
      · simp [parseDiagnosticsLoop, h1, ih, toEntry, List.filter_cons, List.append_assoc]
      · by_cases h2 : d.severity = 2
        · simp [parseDiagnosticsLoop, h1, h2, ih, toEntry, List.filter_cons, List.append_assoc]
        · simp [parseDiagnosticsLoop, h1, h2, ih, List.filter_cons]

/-- C8.  `parseDiagnostics` is a pure function whose `errors` output
is exactly the severity-1 records and whose `warnings` output is
exactly the severity-2 records, in input order, each converted by
`toEntry`: line and column incremented by 1 from the 0-based input,
message copied verbatim, tagged `"error"` / `"warning"`.  Records of
any other severity (3 = information, 4 = hint) appear in neither list,
since they survive neither filter. -/
theorem parseDiagnostics_spec (ds : List RawDiag) :
    parseDiagnostics ds =
      ((ds.filter (fun d => d.severity == 1)).map (toEntry "error"),
       (ds.filter (fun d => d.severity == 2)).map (toEntry "warning")) := by
  unfold parseDiagnostics
  rw [parseDiagnosticsLoop_spec]
  simp

end GodotMCP
